import Mathlib

/-!
Verification of the Mohr stress circle calculator (mohr_stress_circle.py).

The script computes, from three real inputs (sigmax, sigmay, shear_stress):
  center            = ((sigmax + sigmay) / 2, 0)            -- a 2D point
  radius            = sqrt(((sigmax - sigmay)/2)^2 + shear_stress^2)
  max_normal_stress = center.1 + radius
  min_normal_stress = center.1 - radius
  max_shear_stress  = radius
and then plots the circle from 361 sampled angles together with a
three-point line [(sigmax, shear), (center, 0), (sigmay, -shear)].

The embedding below mirrors the stress_state and plot_msc methods over ℝ.
-/

namespace MohrStressCircle

/-- Full stress state computed by the stress_state method: the three inputs
together with the five derived quantities. -/
structure StressState where
  sigmax : ℝ
  sigmay : ℝ
  shear_stress : ℝ
  center : ℝ × ℝ
  radius : ℝ
  max_normal_stress : ℝ
  min_normal_stress : ℝ
  max_shear_stress : ℝ

/-- Argument of the square root in the radius formula (line 49 of the
source): (((sigmax - sigmay) / 2)^2) + (shear_stress^2). -/
noncomputable def radicand (sigmax sigmay shear_stress : ℝ) : ℝ :=
  ((sigmax - sigmay) / 2) ^ 2 + shear_stress ^ 2

/-- Embedding of mohr_stress_circle.stress_state (source lines 46-54):
center = ((sigmax + sigmay)/2, 0), radius = sqrt(radicand),
max_normal_stress = center[0] + radius, min_normal_stress =
center[0] - radius, max_shear_stress = radius. -/
noncomputable def stress_state (sigmax sigmay shear_stress : ℝ) : StressState :=
  let center : ℝ × ℝ := ((sigmax + sigmay) / 2, 0)
  let radius : ℝ := Real.sqrt (radicand sigmax sigmay shear_stress)
  { sigmax := sigmax
    sigmay := sigmay
    shear_stress := shear_stress
    center := center
    radius := radius
    max_normal_stress := center.1 + radius
    min_normal_stress := center.1 - radius
    max_shear_stress := radius }

/-- Embedding of np.linspace(a, b, n): n evenly spaced samples from a to b
inclusive; sample i is a + (b - a) * i / (n - 1). -/
noncomputable def linspace (a b : ℝ) (n : ℕ) : List ℝ :=
  (List.range n).map (fun i : ℕ => a + (b - a) * (i : ℝ) / ((n : ℝ) - 1))

/-- Angles sampled by plot_msc (source line 83):
np.linspace(0, 360, 361) * (2 * pi / 360). -/
noncomputable def radians : List ℝ :=
  (linspace 0 360 361).map (fun t => t * (2 * Real.pi / 360))

/-- Circle points plotted by plot_msc (source lines 84-85): for each sampled
angle t, the point (center[0] + radius * cos t, radius * sin t). -/
noncomputable def circle_points (sigmax sigmay shear_stress : ℝ) : List (ℝ × ℝ) :=
  let st := stress_state sigmax sigmay shear_stress
  radians.map (fun t => (st.center.1 + st.radius * Real.cos t, st.radius * Real.sin t))

/-- Three-point line plotted by plot_msc (source line 92): x-coordinates
[sigmax, center[0], sigmay] paired with y-coordinates
[shear_stress, center[1], -shear_stress]. -/
noncomputable def line_points (sigmax sigmay shear_stress : ℝ) : List (ℝ × ℝ) :=
  let st := stress_state sigmax sigmay shear_stress
  [(sigmax, shear_stress), (st.center.1, st.center.2), (sigmay, -shear_stress)]

/-- Euclidean distance between two points of the stress plane. -/
noncomputable def planeDist (p q : ℝ × ℝ) : ℝ :=
  Real.sqrt ((p.1 - q.1) ^ 2 + (p.2 - q.2) ^ 2)

/-- Midpoint of two points of the stress plane. -/
noncomputable def planeMidpoint (p q : ℝ × ℝ) : ℝ × ℝ :=
  ((p.1 + q.1) / 2, (p.2 + q.2) / 2)

end MohrStressCircle

namespace MohrStressCircle

/-- C1: for every real sigmaX, sigmaY, shear, the calculator's radius equals
sqrt(((sigmaX - sigmaY)/2)^2 + shear^2), and this radius is nonnegative. -/
theorem radius_formula_and_nonneg (sigmax sigmay shear_stress : ℝ) :
    (stress_state sigmax sigmay shear_stress).radius =
      Real.sqrt (((sigmax - sigmay) / 2) ^ 2 + shear_stress ^ 2) ∧
    0 ≤ (stress_state sigmax sigmay shear_stress).radius :=
  ⟨rfl, Real.sqrt_nonneg _⟩

/-- C2: for every real sigmaX, sigmaY, shear, the computed center is the
point ((sigmaX + sigmaY)/2, 0): its normal-stress coordinate is
(sigmaX + sigmaY)/2 and its shear-axis coordinate is 0. -/
theorem center_eq (sigmax sigmay shear_stress : ℝ) :
    (stress_state sigmax sigmay shear_stress).center = ((sigmax + sigmay) / 2, 0) :=
  rfl

/-- C3: for every real sigmaX, sigmaY, shear, the derived outputs satisfy
maxNormal = center + radius, minNormal = center - radius, and
maxShear = radius, where center is the circle center's normal-stress
coordinate. -/
theorem derived_outputs_eq (sigmax sigmay shear_stress : ℝ) :
    (stress_state sigmax sigmay shear_stress).max_normal_stress =
      (stress_state sigmax sigmay shear_stress).center.1 +
        (stress_state sigmax sigmay shear_stress).radius ∧
    (stress_state sigmax sigmay shear_stress).min_normal_stress =
      (stress_state sigmax sigmay shear_stress).center.1 -
        (stress_state sigmax sigmay shear_stress).radius ∧
    (stress_state sigmax sigmay shear_stress).max_shear_stress =
      (stress_state sigmax sigmay shear_stress).radius :=
  ⟨rfl, rfl, rfl⟩

/-- C4 counterexample: on the input sigmaX=90, sigmaY=-60, shear=20 the
computed radius is strictly below 77.625, so to 2 decimal places it is
77.62 and not 77.63 as the claim states (the same 0.01 error propagates
to maxNormal and minNormal). -/
theorem example_radius_rounds_below :
    (stress_state 90 (-60) 20).radius < 77.625 ∧
    ¬ |(stress_state 90 (-60) 20).radius - 77.63| ≤ 0.005 := by
  have hr : (stress_state 90 (-60) 20).radius = Real.sqrt 6025 := by
    show Real.sqrt (radicand 90 (-60) 20) = Real.sqrt 6025
    norm_num [radicand]
  have hlt : Real.sqrt 6025 < 77.625 := by
    rw [Real.sqrt_lt' (by norm_num)]
    norm_num
  refine ⟨by rw [hr]; exact hlt, ?_⟩
  rw [hr]
  intro h
  have h2 := (abs_le.mp h).1
  linarith

/-- C4 amended: on the input sigmaX=90, sigmaY=-60, shear=20 the calculator
produces center=(15, 0), radius=sqrt(6025)=sqrt(75 squared + 20 squared),
which to 2 decimal places is 77.62, maxNormal=92.62, minNormal=-62.62 and
maxShear=radius=77.62 (each to 2 decimal places). -/
theorem example_values :
    (stress_state 90 (-60) 20).center = (15, 0) ∧
    (stress_state 90 (-60) 20).radius = Real.sqrt (75 ^ 2 + 20 ^ 2) ∧
    |(stress_state 90 (-60) 20).radius - 77.62| < 0.005 ∧
    |(stress_state 90 (-60) 20).max_normal_stress - 92.62| < 0.005 ∧
    |(stress_state 90 (-60) 20).min_normal_stress - (-62.62)| < 0.005 ∧
    (stress_state 90 (-60) 20).max_shear_stress = (stress_state 90 (-60) 20).radius := by
  have hr : (stress_state 90 (-60) 20).radius = Real.sqrt 6025 := by
    show Real.sqrt (radicand 90 (-60) 20) = Real.sqrt 6025
    norm_num [radicand]
  have hlt : Real.sqrt 6025 < 77.625 := by
    rw [Real.sqrt_lt' (by norm_num)]
    norm_num
  have hgt : (77.615 : ℝ) < Real.sqrt 6025 := by
    rw [Real.lt_sqrt (by norm_num)]
    norm_num
  have hmax : (stress_state 90 (-60) 20).max_normal_stress = 15 + Real.sqrt 6025 := by
    show ((90 : ℝ) + -60) / 2 + Real.sqrt (radicand 90 (-60) 20) = 15 + Real.sqrt 6025
    norm_num [radicand]
  have hmin : (stress_state 90 (-60) 20).min_normal_stress = 15 - Real.sqrt 6025 := by
    show ((90 : ℝ) + -60) / 2 - Real.sqrt (radicand 90 (-60) 20) = 15 - Real.sqrt 6025
    norm_num [radicand]
  refine ⟨?_, ?_, ?_, ?_, ?_, rfl⟩
  · show (((90 : ℝ) + -60) / 2, (0 : ℝ)) = (15, 0)
    norm_num
  · rw [hr]
    norm_num
  · rw [hr, abs_lt]
    constructor <;> linarith
  · rw [hmax, abs_lt]
    constructor <;> linarith
  · rw [hmin, abs_lt]
    constructor <;> linarith

/-- C5: swapping sigmaX and sigmaY yields the same center and the same
radius, while the plotted three-point line becomes the reversal of the
original line with the shear coordinate of every point negated; in
particular the shear values attached to the two endpoints flip sign. -/
theorem swap_symmetry (sigmax sigmay shear_stress : ℝ) :
    (stress_state sigmay sigmax shear_stress).center =
      (stress_state sigmax sigmay shear_stress).center ∧
    (stress_state sigmay sigmax shear_stress).radius =
      (stress_state sigmax sigmay shear_stress).radius ∧
    line_points sigmay sigmax shear_stress =
      (line_points sigmax sigmay shear_stress).reverse.map (fun p => (p.1, -p.2)) := by
  refine ⟨?_, ?_, ?_⟩
  · show ((sigmay + sigmax) / 2, (0 : ℝ)) = ((sigmax + sigmay) / 2, 0)
    rw [add_comm]
  · show Real.sqrt (radicand sigmay sigmax shear_stress) =
      Real.sqrt (radicand sigmax sigmay shear_stress)
    congr 1
    unfold radicand
    ring
  · show [((sigmay : ℝ), shear_stress), ((sigmay + sigmax) / 2, (0 : ℝ)),
        (sigmax, -shear_stress)] =
      ([((sigmax : ℝ), shear_stress), ((sigmax + sigmay) / 2, (0 : ℝ)),
        (sigmay, -shear_stress)]).reverse.map (fun p => (p.1, -p.2))
    rw [add_comm sigmay sigmax]
    simp [List.reverse_cons, neg_neg, neg_zero]

/-- C6: the difference between the computed maximum and minimum principal
normal stresses equals twice the computed radius. -/
theorem max_sub_min_eq_two_radius (sigmax sigmay shear_stress : ℝ) :
    (stress_state sigmax sigmay shear_stress).max_normal_stress -
      (stress_state sigmax sigmay shear_stress).min_normal_stress =
      2 * (stress_state sigmax sigmay shear_stress).radius := by
  show (sigmax + sigmay) / 2 + Real.sqrt (radicand sigmax sigmay shear_stress) -
      ((sigmax + sigmay) / 2 - Real.sqrt (radicand sigmax sigmay shear_stress)) =
      2 * Real.sqrt (radicand sigmax sigmay shear_stress)
  ring

/-- C7: the renderer samples exactly 361 angles, namely i degrees for
i = 0, ..., 360 (1-degree steps from 0 to 360 inclusive, converted to
radians as i * pi / 180), and maps each angle t to the point
(center + radius * cos t, radius * sin t). -/
theorem circle_sampling (sigmax sigmay shear_stress : ℝ) :
    (circle_points sigmax sigmay shear_stress).length = 361 ∧
    circle_points sigmax sigmay shear_stress =
      (List.range 361).map (fun i : ℕ =>
        ((stress_state sigmax sigmay shear_stress).center.1 +
            (stress_state sigmax sigmay shear_stress).radius *
              Real.cos ((i : ℝ) * (Real.pi / 180)),
          (stress_state sigmax sigmay shear_stress).radius *
            Real.sin ((i : ℝ) * (Real.pi / 180)))) := by
  constructor
  · simp only [circle_points, radians, linspace, List.length_map, List.length_range]
  · simp only [circle_points, radians, linspace, List.map_map]
    refine List.map_congr_left ?_
    intro i _
    simp only [Function.comp_apply]
    have hangle : (0 + (360 - 0) * (i : ℝ) / ((361 : ℕ) - 1)) * (2 * Real.pi / 360) =
        (i : ℝ) * (Real.pi / 180) := by
      push_cast
      ring
    rw [hangle]

/-- C8: the stress-state computation is total over the reals: it is a total
function, and the argument handed to the square root (the radicand) is
nonnegative for every input triple, so the root is always in its domain. -/
theorem computation_total (sigmax sigmay shear_stress : ℝ) :
    0 ≤ radicand sigmax sigmay shear_stress ∧
    (stress_state sigmax sigmay shear_stress).radius =
      Real.sqrt (radicand sigmax sigmay shear_stress) := by
  refine ⟨?_, rfl⟩
  unfold radicand
  positivity

/-- C9: negating the shear input leaves the computed radius, maxNormal,
minNormal and maxShear unchanged, since shear enters only through its
square. -/
theorem neg_shear_invariant (sigmax sigmay shear_stress : ℝ) :
    (stress_state sigmax sigmay (-shear_stress)).radius =
      (stress_state sigmax sigmay shear_stress).radius ∧
    (stress_state sigmax sigmay (-shear_stress)).max_normal_stress =
      (stress_state sigmax sigmay shear_stress).max_normal_stress ∧
    (stress_state sigmax sigmay (-shear_stress)).min_normal_stress =
      (stress_state sigmax sigmay shear_stress).min_normal_stress ∧
    (stress_state sigmax sigmay (-shear_stress)).max_shear_stress =
      (stress_state sigmax sigmay shear_stress).max_shear_stress := by
  have h : radicand sigmax sigmay (-shear_stress) = radicand sigmax sigmay shear_stress := by
    unfold radicand
    ring
  have hr : (stress_state sigmax sigmay (-shear_stress)).radius =
      (stress_state sigmax sigmay shear_stress).radius := by
    show Real.sqrt (radicand sigmax sigmay (-shear_stress)) =
      Real.sqrt (radicand sigmax sigmay shear_stress)
    rw [h]
  refine ⟨hr, ?_, ?_, hr⟩
  · show (sigmax + sigmay) / 2 + Real.sqrt (radicand sigmax sigmay (-shear_stress)) =
      (sigmax + sigmay) / 2 + Real.sqrt (radicand sigmax sigmay shear_stress)
    rw [h]
  · show (sigmax + sigmay) / 2 - Real.sqrt (radicand sigmax sigmay (-shear_stress)) =
      (sigmax + sigmay) / 2 - Real.sqrt (radicand sigmax sigmay shear_stress)
    rw [h]

/-- C10: the two endpoints of the plotted three-point line, (sigmaX, shear)
and (sigmaY, -shear), each lie at distance radius from the center, and the
center is their midpoint, so the plotted segment is a diameter of the
circle. -/
theorem line_is_diameter (sigmax sigmay shear_stress : ℝ) :
    planeDist (sigmax, shear_stress) (stress_state sigmax sigmay shear_stress).center =
      (stress_state sigmax sigmay shear_stress).radius ∧
    planeDist (sigmay, -shear_stress) (stress_state sigmax sigmay shear_stress).center =
      (stress_state sigmax sigmay shear_stress).radius ∧
    planeMidpoint (sigmax, shear_stress) (sigmay, -shear_stress) =
      (stress_state sigmax sigmay shear_stress).center := by
  refine ⟨?_, ?_, ?_⟩
  · show Real.sqrt ((sigmax - (sigmax + sigmay) / 2) ^ 2 + (shear_stress - 0) ^ 2) =
      Real.sqrt (radicand sigmax sigmay shear_stress)
    congr 1
    unfold radicand
    ring
  · show Real.sqrt ((sigmay - (sigmax + sigmay) / 2) ^ 2 + (-shear_stress - 0) ^ 2) =
      Real.sqrt (radicand sigmax sigmay shear_stress)
    congr 1
    unfold radicand
    ring
  · show ((sigmax + sigmay) / 2, (shear_stress + -shear_stress) / 2) =
      ((sigmax + sigmay) / 2, (0 : ℝ))
    have hzero : (shear_stress + -shear_stress) / 2 = (0 : ℝ) := by ring
    rw [hzero]

end MohrStressCircle
